import Mathlib

/-!
Verification of the Macaques overlay-resolution and patch-application engine.

The development shallowly embeds the core of the repository:

* the backend service-patch registry (src/backend/service-registry.ts:
  MacaquesServiceRegistry with register, applyPatches, isApplied, reset);
* the pure path helpers (src/shared/utils.ts: findFileWithExtensions,
  resolveAliasedPath);
* the resolveId hook of the Vite plugin (src/frontend/vite-plugin.ts);
* the frontend manifest validator (src/cli/validate.ts: validateFrontendPatch).

Modelling conventions:

* The filesystem is an existence predicate fs : String -> Bool
  (existsSync).
* JavaScript strings are modelled by Lean String; startsWith, slice and
  length are given explicit list-of-characters implementations
  (strStartsWith, strDrop, strLength) matching the JavaScript semantics.
* path.resolve dir rel is modelled as dir ++ "/" ++ rel (the code only
  resolves relative segments against absolute roots; no normalization is
  performed by the model).
* The DI container required by applyPatches is an association list from
  target identifiers (the class, identified by its name) to service
  instances.  The container state additionally carries traces of the
  get, factory and set invocations performed on it, so that statements
  such as "set was called exactly once" or "the third factory is never
  invoked" are expressible.  Exceptions are modelled by Option/Except
  values: a thrown value is a String, and applyPatches returns the
  final registry state, the final container state and the propagated
  exception (if any), mirroring the fact that in the source the
  container mutations performed before a throw persist.
* Logging (logger.info and friends) is side-effect-free reporting and is
  omitted.
-/

namespace Macaques

/-- Characterwise prefix test: listStarts s p is true when p is a prefix
of s.  Models JavaScript String.startsWith on the character lists. -/
def listStarts : List Char → List Char → Bool
  | _, [] => true
  | [], _ :: _ => false
  | c :: s, d :: p => c == d && listStarts s p

/-- Model of JavaScript s.startsWith(p). -/
def strStartsWith (s p : String) : Bool :=
  listStarts s.data p.data

/-- Model of JavaScript s.slice(n): drop the first n characters. -/
def strDrop (s : String) (n : Nat) : String :=
  String.mk (s.data.drop n)

/-- Model of JavaScript s.length. -/
def strLength (s : String) : Nat :=
  s.data.length

/-- Model of path.resolve(dir, rel) for a relative rel. -/
def pathResolve (dir rel : String) : String :=
  dir ++ "/" ++ rel

/-! ## Service-patch registry (src/backend/service-registry.ts) -/

/-- A pending service patch.  The target class of the source is
identified by an opaque string key; the factory may throw, which is
modelled by Except String. -/
structure ServicePatch (α : Type) where
  target : String
  factory : α → Except String α
  description : Option String
  methodsOverridden : Option (List String)

/-- The private state of MacaquesServiceRegistry: the ordered list of
registered patches and the applied flag. -/
structure RegistryState (α : Type) where
  patches : List (ServicePatch α)
  applied : Bool

/-- The exact message of the error thrown by register after apply
(source lines 101-104, two concatenated string literals). -/
def registerAfterApplyMsg : String :=
  "Cannot register patches after they have been applied. " ++
    "Make sure to register all patches before calling applyPatches()."

/-- MacaquesServiceRegistry.register: throws if already applied,
otherwise appends the patch.  The second component is the thrown
error, none meaning normal return. -/
def register {α : Type} (r : RegistryState α) (p : ServicePatch α) :
    RegistryState α × Option String :=
  if r.applied then
    (r, some registerAfterApplyMsg)
  else
    ({ r with patches := r.patches ++ [p] }, none)

/-- Association-list lookup used to model container.get on the DI
container contents. -/
def lookupService {α : Type} (t : String) : List (String × α) → Option α
  | [] => none
  | (k, v) :: rest => if k = t then some v else lookupService t rest

/-- Association-list update used to model container.set: overwrite the
binding for t when present, otherwise append it. -/
def setService {α : Type} (t : String) (v : α) :
    List (String × α) → List (String × α)
  | [] => [(t, v)]
  | (k, w) :: rest =>
    if k = t then (t, v) :: rest else (k, w) :: setService t v rest

/-- The external DI container together with the traces of the calls the
registry made on it.  getCalls, factoryCalls and setCalls record, in
order, the get invocations, the factory invocations and the set
invocations performed during apply. -/
structure DIState (α : Type) where
  services : List (String × α)
  getCalls : List String
  factoryCalls : List String
  setCalls : List (String × α)

/-- One iteration of the loop in applyPatches (source lines 125-141):
fetch the original via container.get, run the factory, store the result
via container.set.  Any raised exception is returned as some e; the
returned container state reflects exactly the mutations that happened
before the throw. -/
def applyOne {α : Type} (c : DIState α) (p : ServicePatch α) :
    DIState α × Option String :=
  let c1 := { c with getCalls := c.getCalls ++ [p.target] }
  match lookupService p.target c.services with
  | none => (c1, some ("Service not found: " ++ p.target))
  | some original =>
    let c2 := { c1 with factoryCalls := c1.factoryCalls ++ [p.target] }
    match p.factory original with
    | Except.error e => (c2, some e)
    | Except.ok patched =>
      ({ c2 with
          services := setService p.target patched c2.services,
          setCalls := c2.setCalls ++ [(p.target, patched)] }, none)

/-- The for-loop of applyPatches: iterate in registration order and stop
at the first exception, which is rethrown unmodified (the catch block
logs and rethrows the original error object). -/
def applyLoop {α : Type} (c : DIState α) :
    List (ServicePatch α) → DIState α × Option String
  | [] => (c, none)
  | p :: ps =>
    let step := applyOne c p
    match step.2 with
    | none => applyLoop step.1 ps
    | some e => (step.1, some e)

/-- Result of MacaquesServiceRegistry.applyPatches: the new registry
state, the final container state, and the propagated exception (none on
success). -/
structure ApplyOutcome (α : Type) where
  registry : RegistryState α
  container : DIState α
  error : Option String

/-- MacaquesServiceRegistry.applyPatches: if already applied, warn and
return without touching the container; otherwise run the loop; set
applied to true only if the whole loop completed without exception. -/
def applyPatches {α : Type} (r : RegistryState α) (c : DIState α) :
    ApplyOutcome α :=
  if r.applied then
    ⟨r, c, none⟩
  else
    let run := applyLoop c r.patches
    match run.2 with
    | none => ⟨{ r with applied := true }, run.1, none⟩
    | some e => ⟨r, run.1, some e⟩

/-! ## Path helpers (src/shared/utils.ts) -/

/-- The default extension list of findFileWithExtensions
(source line 73). -/
def defaultExtensions : List String :=
  ["", ".ts", ".tsx", ".js", ".jsx", ".vue"]

/-- findFileWithExtensions: probe basePath ++ ext for each ext in order
and return the first existing candidate, or none. -/
def findFileWithExtensions (fs : String → Bool) (basePath : String) :
    List String → Option String
  | [] => none
  | ext :: rest =>
    if fs (basePath ++ ext) then some (basePath ++ ext)
    else findFileWithExtensions fs basePath rest

/-- resolveAliasedPath: pure mapping from an aliased import specifier to
a filesystem path under targetDir, absent when the specifier does not
carry the alias. -/
def resolveAliasedPath (source aliasPfx targetDir : String) : Option String :=
  if strStartsWith source (aliasPfx ++ "/") then
    some (pathResolve targetDir (strDrop source (strLength aliasPfx + 1)))
  else
    none

/-! ## Vite plugin resolveId hook (src/frontend/vite-plugin.ts) -/

/-- The always-base alias together with its trailing slash, as written
in the source (lines 116-117). -/
def baseAliasSlash : String := "@n8n-base/"

/-- The resolveId hook of the macaques-frontend plugin.  First branch:
specifiers carrying the configured alias are probed under the
extensions directory and the override returned when found; when no
override is found control falls through.  Second branch: specifiers
carrying the always-base alias are probed under the n8n editor-ui src
directory only, returning none when nothing exists there.  Everything
else returns none so that Vite resolves it normally.  The stats
bookkeeping and logging of the source are pure reporting and omitted. -/
def resolveId (fs : String → Bool)
    (aliasPfx extensionsFrontendDir n8nEditorUiSrc source : String) :
    Option String :=
  let overrideStep : Option String :=
    if strStartsWith source (aliasPfx ++ "/") then
      findFileWithExtensions fs
        (pathResolve (pathResolve extensionsFrontendDir aliasPfx)
          (strDrop source (strLength aliasPfx + 1)))
        defaultExtensions
    else none
  match overrideStep with
  | some overridePath => some overridePath
  | none =>
    if strStartsWith source baseAliasSlash then
      findFileWithExtensions fs
        (pathResolve n8nEditorUiSrc (strDrop source (strLength baseAliasSlash)))
        defaultExtensions
    else none

/-! ## Manifest validator (src/cli/validate.ts) -/

/-- The kind of a manifest patch entry (shared/types.ts). -/
inductive PatchType where
  | replace
  | extend
  | service_extension
  | new_controller
  | module
  | hook
deriving DecidableEq

/-- A manifest patch entry (shared/types.ts). -/
structure PatchEntry where
  path : String
  type : PatchType
  description : String
  added : Option String
  methodsOverridden : Option (List String)
  moduleName : Option String

/-- Validation status (shared/types.ts). -/
inductive VStatus where
  | ok
  | missing
  | changed
  | error
deriving DecidableEq

/-- Result of validating one patch (shared/types.ts). -/
structure ValidationResult where
  patch : PatchEntry
  valid : Bool
  status : VStatus
  message : Option String
  basePath : Option String

/-- Model of patch.path.replace applied to the anchored pattern that
removes a leading at-slash: drop the two leading characters when the
path starts with the alias marker, otherwise leave it unchanged. -/
def stripLeadingAtSlash (p : String) : String :=
  if strStartsWith p "@/" then strDrop p 2 else p

/-- validateFrontendPatch (src/cli/validate.ts lines 132-171): the
override file must exist under the extensions directory, then the base
file must exist under the n8n source tree. -/
def validateFrontendPatch (fs : String → Bool) (patch : PatchEntry)
    (extensionsDir n8nSrc : String) : ValidationResult :=
  let overridePath := pathResolve extensionsDir patch.path
  match findFileWithExtensions fs overridePath defaultExtensions with
  | none =>
    { patch := patch, valid := false, status := VStatus.missing,
      message := some "Override file not found",
      basePath := some overridePath }
  | some _ =>
    let basePath := pathResolve n8nSrc (stripLeadingAtSlash patch.path)
    match findFileWithExtensions fs basePath defaultExtensions with
    | none =>
      { patch := patch, valid := false, status := VStatus.missing,
        message := some "Base file not found in n8n - may have been moved or deleted",
        basePath := some basePath }
    | some baseFile =>
      { patch := patch, valid := true, status := VStatus.ok,
        message := none, basePath := some baseFile }

/-! ## Concrete instances used by witnesses and counterexamples -/

/-- A patch on target svcA that wraps the instance by adding ten. -/
def patchOkA : ServicePatch Nat :=
  ⟨"svcA", fun n => Except.ok (n + 10), none, none⟩

/-- A patch on target svcB whose factory always throws "boom". -/
def patchBoom : ServicePatch Nat :=
  ⟨"svcB", fun _ => Except.error "boom", none, none⟩

/-- A patch on target svcC that wraps the instance by adding one. -/
def patchOkC : ServicePatch Nat :=
  ⟨"svcC", fun n => Except.ok (n + 1), none, none⟩

/-- A container holding the three demo services, with empty traces. -/
def cont0 : DIState Nat :=
  ⟨[("svcA", 1), ("svcB", 2), ("svcC", 3)], [], [], []⟩

/-- A patch whose factory throws on the sole service svcA. -/
def patchBoomA : ServicePatch Nat :=
  ⟨"svcA", fun _ => Except.error "boom", none, none⟩

/-- A container holding only svcA, with empty traces. -/
def contA : DIState Nat :=
  ⟨[("svcA", 0)], [], [], []⟩

/-- Filesystem in which only the n8n base file n8n/foo.ts exists. -/
def fsBaseOnly : String → Bool :=
  fun p => p == "n8n/foo.ts"

/-- Filesystem in which the base file n8n/foo.ts and an override file
ext/@/foo.ts both exist. -/
def fsBaseAndOverride : String → Bool :=
  fun p => p == "n8n/foo.ts" || p == "ext/@/foo.ts"

/-- Filesystem in which b.tsx and b.vue exist (used to show the suffix
preference order). -/
def fsTsxVue : String → Bool :=
  fun p => p == "b.tsx" || p == "b.vue"

/-- The empty filesystem. -/
def fsEmpty : String → Bool :=
  fun _ => false

/-- A manifest entry of kind replace pointing at an overlay path. -/
def demoEntry : PatchEntry :=
  ⟨"@/app/Header.vue", PatchType.replace, "demo", none, none, none⟩

/-- A registry that has already been applied (empty patch list). -/
def regApplied : RegistryState Nat := ⟨[], true⟩

/-- A patch whose target is absent from the demo container, making the
container get step fail. -/
def patchMissing : ServicePatch Nat :=
  ⟨"nope", fun n => Except.ok n, none, none⟩

/-- The container state after successfully applying patchOkA to cont0:
svcA holds the wrapped value 11 and the traces record the one get,
factory and set call. -/
def contAfterA : DIState Nat :=
  ⟨[("svcA", 11), ("svcB", 2), ("svcC", 3)], ["svcA"], ["svcA"], [("svcA", 11)]⟩

/-- The container state after the second run re-applies patchOkA on top
of the failed first run: svcA holds the doubly-wrapped value 21 and the
traces show the repeated get and factory calls. -/
def contRerunA : DIState Nat :=
  ⟨[("svcA", 21), ("svcB", 2), ("svcC", 3)], ["svcA", "svcB", "svcA"],
    ["svcA", "svcB", "svcA"], [("svcA", 11), ("svcA", 21)]⟩

/-- The candidate paths probed under the base root for an always-base
specifier: the stripped relative path resolved against the base root,
tried with every default extension. -/
def baseCandidates (baseDir source : String) : List String :=
  defaultExtensions.map
    (fun e => pathResolve baseDir (strDrop source (strLength baseAliasSlash)) ++ e)

/-! ## Supporting lemmas -/

/-- Looking up a target right after setting it yields the value set. -/
theorem lookup_setService_self {α : Type} (t : String) (v : α) (l : List (String × α)) :
    lookupService t (setService t v l) = some v := by
  induction l with
  | nil => simp [setService, lookupService]
  | cons kv rest ih =>
    obtain ⟨k, w⟩ := kv
    by_cases h : k = t
    · simp [setService, h, lookupService]
    · simp [setService, h, lookupService, ih]

/-- findFileWithExtensions returns the first extension, in list order,
whose candidate exists. -/
theorem findFile_eq_find {fs : String → Bool} {basePath : String} (exts : List String) :
    findFileWithExtensions fs basePath exts =
      (exts.find? (fun e => fs (basePath ++ e))).map (fun e => basePath ++ e) := by
  induction exts with
  | nil => rfl
  | cons e rest ih =>
    by_cases h : fs (basePath ++ e)
    · simp [findFileWithExtensions, h, List.find?]
    · simp [findFileWithExtensions, h, List.find?, ih]

/-- findFileWithExtensions only consults the filesystem on the candidate
paths: two filesystems agreeing there give the same result. -/
theorem findFile_congr {fs1 fs2 : String → Bool} {basePath : String}
    (exts : List String)
    (h : ∀ e ∈ exts, fs1 (basePath ++ e) = fs2 (basePath ++ e)) :
    findFileWithExtensions fs1 basePath exts =
      findFileWithExtensions fs2 basePath exts := by
  induction exts with
  | nil => rfl
  | cons e rest ih =>
    have he := h e (by simp)
    by_cases h1 : fs1 (basePath ++ e)
    · simp [findFileWithExtensions, h1, he ▸ h1]
    · have h2 : fs2 (basePath ++ e) = false := by rw [← he]; simpa using h1
      simp [findFileWithExtensions, h1, h2]
      exact ih (fun x hx => h x (by simp [hx]))

/-- A path returned by findFileWithExtensions is one of the candidate
paths and exists on the filesystem. -/
theorem findFile_mem {fs : String → Bool} {basePath r : String}
    (exts : List String)
    (h : findFileWithExtensions fs basePath exts = some r) :
    r ∈ exts.map (fun e => basePath ++ e) ∧ fs r = true := by
  induction exts with
  | nil => simp [findFileWithExtensions] at h
  | cons e rest ih =>
    by_cases h1 : fs (basePath ++ e)
    · simp [findFileWithExtensions, h1] at h
      subst h
      simp [h1]
    · simp [findFileWithExtensions, h1] at h
      obtain ⟨hm, hf⟩ := ih h
      exact ⟨by simp [hm], hf⟩

/-- When no candidate exists, findFileWithExtensions returns none. -/
theorem findFile_none {fs : String → Bool} {basePath : String}
    (exts : List String)
    (h : ∀ e ∈ exts, fs (basePath ++ e) = false) :
    findFileWithExtensions fs basePath exts = none := by
  induction exts with
  | nil => rfl
  | cons e rest ih =>
    have he := h e (by simp)
    simp [findFileWithExtensions, he]
    exact ih (fun x hx => h x (by simp [hx]))

/-- A specifier carrying the always-base alias cannot also carry the
default overlay alias, because its second character is the letter n and
not a slash. -/
theorem base_alias_not_at_slash (s : String)
    (h : strStartsWith s baseAliasSlash = true) :
    strStartsWith s "@/" = false := by
  unfold strStartsWith at h ⊢
  rw [show baseAliasSlash.data = ['@', 'n', '8', 'n', '-', 'b', 'a', 's', 'e', '/'] from rfl] at h
  rw [show ("@/" : String).data = ['@', '/'] from rfl]
  match hs : s.data with
  | [] => rw [hs] at h; simp [listStarts] at h
  | [c] => rw [hs] at h; simp [listStarts] at h
  | c0 :: c1 :: t =>
    rw [hs] at h
    simp [listStarts] at h ⊢
    intro h0
    rw [h.2.1]
    decide

/-- Setting one target leaves the bindings of every other target
unchanged. -/
theorem lookup_setService_ne {α : Type} (t t2 : String) (v : α) (l : List (String × α))
    (h : t2 ≠ t) : lookupService t (setService t2 v l) = lookupService t l := by
  induction l with
  | nil => simp [setService, lookupService, h]
  | cons kv rest ih =>
    obtain ⟨k, w⟩ := kv
    by_cases hk : k = t2
    · subst hk
      simp [setService, lookupService, h]
    · simp [setService, hk, lookupService, ih]

/-- A patch application step that raises leaves the container services
untouched: only the set step mutates them and it is never reached. -/
theorem applyOne_err_services {α : Type} (c : DIState α) (p : ServicePatch α) (e : String)
    (h : (applyOne c p).2 = some e) : (applyOne c p).1.services = c.services := by
  unfold applyOne at h ⊢
  rcases hl : lookupService p.target c.services with _ | v
  · simp [hl]
  · rcases hf : p.factory v with e2 | w
    · simp [hl, hf]
    · simp [hl, hf] at h

/-- A successful patch application step fetched some original, wrapped
it, and stored the wrapped value for its target. -/
theorem applyOne_ok_spec {α : Type} (c : DIState α) (p : ServicePatch α)
    (h : (applyOne c p).2 = none) :
    ∃ v w, lookupService p.target c.services = some v ∧ p.factory v = Except.ok w ∧
      (applyOne c p).1.services = setService p.target w c.services := by
  unfold applyOne at h ⊢
  rcases hl : lookupService p.target c.services with _ | v
  · simp [hl] at h
  · rcases hf : p.factory v with e2 | w
    · simp [hl, hf] at h
    · exact ⟨v, w, rfl, hf, by simp [hl, hf]⟩

/-- After a fully successful prefix, the loop continues on the rest of
the list from the state the prefix produced. -/
theorem applyLoop_append_ok {α : Type} (pre rest : List (ServicePatch α))
    (c c1 : DIState α) (h : applyLoop c pre = (c1, none)) :
    applyLoop c (pre ++ rest) = applyLoop c1 rest := by
  induction pre generalizing c with
  | nil =>
    simp [applyLoop] at h
    rw [List.nil_append, h]
  | cons p pre2 ih =>
    rcases hs : (applyOne c p).2 with _ | e
    · simp only [applyLoop, List.cons_append, hs] at h ⊢
      exact ih _ h
    · simp [applyLoop, hs] at h

/-- The loop never changes the binding of a target no patch in the list
carries. -/
theorem applyLoop_services_preserve {α : Type} (t : String)
    (l : List (ServicePatch α)) (c : DIState α)
    (h : ∀ q ∈ l, q.target ≠ t) :
    lookupService t (applyLoop c l).1.services = lookupService t c.services := by
  induction l generalizing c with
  | nil => rfl
  | cons p l2 ih =>
    have hp : p.target ≠ t := h p (by simp)
    rcases hs : (applyOne c p).2 with _ | e
    · obtain ⟨v, w, hl, hf, hserv⟩ := applyOne_ok_spec c p hs
      simp only [applyLoop, hs]
      rw [ih _ (fun q hq => h q (by simp [hq]))]
      rw [hserv, lookup_setService_ne t p.target w c.services hp]
    · simp only [applyLoop, hs]
      exact congrArg (lookupService t) (applyOne_err_services c p e hs)

/-- In a fully successful loop over patches with pairwise-distinct
targets, every patch fetched the binding its target had at loop entry,
wrapped it, and the final state binds the target to the wrapped value. -/
theorem applyLoop_ok_each {α : Type} (l : List (ServicePatch α)) (c c1 : DIState α)
    (h : applyLoop c l = (c1, none))
    (hdist : l.Pairwise (fun q1 q2 => q1.target ≠ q2.target)) :
    ∀ q ∈ l, ∃ v w, lookupService q.target c.services = some v ∧
      q.factory v = Except.ok w ∧ lookupService q.target c1.services = some w := by
  induction l generalizing c with
  | nil => intro q hq; simp at hq
  | cons p l2 ih =>
    rcases hs : (applyOne c p).2 with _ | e
    · have hrest : applyLoop (applyOne c p).1 l2 = (c1, none) := by
        simpa only [applyLoop, hs] using h
      obtain ⟨v, w, hl, hf, hserv⟩ := applyOne_ok_spec c p hs
      have hd := List.pairwise_cons.mp hdist
      intro q hq
      rcases List.mem_cons.mp hq with hqp | hql
      · subst hqp
        refine ⟨v, w, hl, hf, ?_⟩
        have hpres := applyLoop_services_preserve q.target l2 (applyOne c q).1
          (fun q2 hq2 => Ne.symm (hd.1 q2 hq2))
        rw [hrest] at hpres
        rw [hpres, hserv, lookup_setService_self]
      · obtain ⟨v2, w2, hl2, hf2, hc1⟩ := ih _ hrest hd.2 q hql
        refine ⟨v2, w2, ?_, hf2, hc1⟩
        rw [← hl2, hserv, lookup_setService_ne q.target p.target w c.services (hd.1 q hql)]
    · simp [applyLoop, hs] at h

/-- applyPatches on an already-applied registry returns immediately,
touching neither the registry nor the container. -/
theorem applyPatches_applied_noop {α : Type} (r : RegistryState α)
    (c : DIState α) (h : r.applied = true) :
    applyPatches r c = ⟨r, c, none⟩ := by
  simp [applyPatches, h]

/-! ## Claim theorems -/

/-- C1: with three registered patches whose second factory raises,
applyPatches propagates the exception; container.set was called exactly
once, with the replacement produced by the first patch (and the
container holds that replacement under the first target); the factory
of the third patch is never invoked (exactly two factory invocations
happened, for the first and second patches); and the applied flag is
still false after the throw. -/
theorem applyPatches_failfast {α : Type} (p1 p2 p3 : ServicePatch α)
    (c : DIState α) (v1 w1 v2 : α) (e : String)
    (hc : c.getCalls = [] ∧ c.factoryCalls = [] ∧ c.setCalls = [])
    (hg1 : lookupService p1.target c.services = some v1)
    (hf1 : p1.factory v1 = Except.ok w1)
    (hg2 : lookupService p2.target (setService p1.target w1 c.services) = some v2)
    (hf2 : p2.factory v2 = Except.error e) :
    (applyPatches ⟨[p1, p2, p3], false⟩ c).error = some e ∧
    (applyPatches ⟨[p1, p2, p3], false⟩ c).container.setCalls = [(p1.target, w1)] ∧
    (applyPatches ⟨[p1, p2, p3], false⟩ c).container.factoryCalls = [p1.target, p2.target] ∧
    lookupService p1.target (applyPatches ⟨[p1, p2, p3], false⟩ c).container.services = some w1 ∧
    (applyPatches ⟨[p1, p2, p3], false⟩ c).registry.applied = false := by
  obtain ⟨hg, hfc, hsc⟩ := hc
  simp [applyPatches, applyLoop, applyOne, hg1, hf1, hg2, hf2, hg, hfc, hsc,
    lookup_setService_self]

/-- Witness for C1 at concrete patches on Nat services. -/
theorem applyPatches_failfast_witness :
    (applyPatches (⟨[patchOkA, patchBoom, patchOkC], false⟩ : RegistryState Nat) cont0).error = some "boom" ∧
    (applyPatches (⟨[patchOkA, patchBoom, patchOkC], false⟩ : RegistryState Nat) cont0).container.setCalls = [("svcA", 11)] ∧
    (applyPatches (⟨[patchOkA, patchBoom, patchOkC], false⟩ : RegistryState Nat) cont0).container.factoryCalls = ["svcA", "svcB"] ∧
    lookupService "svcA" (applyPatches (⟨[patchOkA, patchBoom, patchOkC], false⟩ : RegistryState Nat) cont0).container.services = some 11 ∧
    (applyPatches (⟨[patchOkA, patchBoom, patchOkC], false⟩ : RegistryState Nat) cont0).registry.applied = false :=
  applyPatches_failfast patchOkA patchBoom patchOkC cont0 1 11 2 "boom"
    (by decide) (by decide) rfl (by decide) rfl

/-- C2: once the applied flag is set, every register call throws the
registration-after-apply error and leaves the registry (and hence the
patch list) unchanged. -/
theorem register_after_apply_fails {α : Type} (r : RegistryState α)
    (p : ServicePatch α) (h : r.applied = true) :
    register r p = (r, some registerAfterApplyMsg) := by
  simp [register, h]

/-- Witness for C2 on an applied registry. -/
theorem register_after_apply_fails_witness :
    register regApplied patchOkA = (regApplied, some registerAfterApplyMsg) :=
  register_after_apply_fails regApplied patchOkA rfl

/-- C3: a successful applyPatches sets the applied flag; a second
applyPatches call then returns at once with no container.get or
container.set calls and no exception, leaving both the registry and the
container exactly as they were; and applyPatches on an empty patch list
succeeds, setting the applied flag. -/
theorem applyPatches_exactly_once {α : Type} (r : RegistryState α)
    (c c2 : DIState α) (h0 : r.applied = false)
    (hok : (applyPatches r c).error = none) :
    (applyPatches r c).registry.applied = true ∧
    applyPatches (applyPatches r c).registry c2 =
      ⟨(applyPatches r c).registry, c2, none⟩ ∧
    applyPatches (⟨[], false⟩ : RegistryState α) c = ⟨⟨[], true⟩, c, none⟩ := by
  have h1 : (applyPatches r c).registry.applied = true := by
    unfold applyPatches at hok ⊢
    rw [h0] at hok ⊢
    simp at hok ⊢
    rcases hrun : (applyLoop c r.patches).2 with _ | e
    · simp [hrun]
    · simp [hrun] at hok
  refine ⟨h1, applyPatches_applied_noop _ c2 h1, ?_⟩
  simp [applyPatches, applyLoop]

/-- Witness for C3 with one successful patch on Nat services. -/
theorem applyPatches_exactly_once_witness :
    (applyPatches (⟨[patchOkA], false⟩ : RegistryState Nat) cont0).registry.applied = true ∧
    applyPatches (applyPatches (⟨[patchOkA], false⟩ : RegistryState Nat) cont0).registry cont0 =
      ⟨(applyPatches (⟨[patchOkA], false⟩ : RegistryState Nat) cont0).registry, cont0, none⟩ ∧
    applyPatches (⟨[], false⟩ : RegistryState Nat) cont0 = ⟨⟨[], true⟩, cont0, none⟩ :=
  applyPatches_exactly_once (⟨[patchOkA], false⟩ : RegistryState Nat) cont0 cont0 rfl (by decide)

/-- C4 counterexample: a factory that throws the value boom makes
applyPatches propagate exactly that value, not a wrapped exception: the
propagated error equals the original thrown by the failing step,
contradicting the wrapped-exception claim (the target identifier only
appears in the logged message, which is not what propagates). -/
theorem apply_error_wrapped_counterexample :
    patchBoomA.factory 0 = Except.error "boom" ∧
    (applyPatches (⟨[patchBoomA], false⟩ : RegistryState Nat) contA).error = some "boom" := by
  exact ⟨rfl, by decide⟩

/-- C4 amended: when any step of applying any patch raises during
applyPatches — after an arbitrary prefix of successfully applied
patches, either the container get step for the failing patch raises or
its factory throws — the exception propagated to the caller is exactly
the value raised by that failing step, unmodified (the catch block only
logs a message naming the target and rethrows the caught error
object). -/
theorem apply_error_unmodified {α : Type} (r : RegistryState α) (c c1 : DIState α)
    (pre ps : List (ServicePatch α)) (p : ServicePatch α) (e : String)
    (ha : r.applied = false)
    (hp : r.patches = pre ++ p :: ps)
    (hpre : applyLoop c pre = (c1, none))
    (hstep : (lookupService p.target c1.services = none ∧
        e = "Service not found: " ++ p.target) ∨
      (∃ v, lookupService p.target c1.services = some v ∧
        p.factory v = Except.error e)) :
    (applyPatches r c).error = some e := by
  have hone : (applyOne c1 p).2 = some e := by
    rcases hstep with ⟨hl, he⟩ | ⟨v, hl, hf⟩
    · simp [applyOne, hl, he]
    · simp [applyOne, hl, hf]
  have hloop : applyLoop c r.patches = ((applyOne c1 p).1, some e) := by
    rw [hp, applyLoop_append_ok pre (p :: ps) c c1 hpre]
    simp [applyLoop, hone]
  simp [applyPatches, ha, hloop]

/-- Witness for the amended C4: a factory failure at the second of three
patches, and a get failure at the second of two patches, both propagate
the value raised by the failing step. -/
theorem apply_error_unmodified_witness :
    (applyPatches (⟨[patchOkA, patchBoom, patchOkC], false⟩ : RegistryState Nat) cont0).error = some "boom" ∧
    (applyPatches (⟨[patchOkA, patchMissing], false⟩ : RegistryState Nat) cont0).error =
      some ("Service not found: " ++ "nope") := by
  constructor
  · exact apply_error_unmodified (⟨[patchOkA, patchBoom, patchOkC], false⟩ : RegistryState Nat)
      cont0 contAfterA [patchOkA] [patchOkC] patchBoom "boom" rfl rfl rfl
      (Or.inr ⟨2, by decide, rfl⟩)
  · exact apply_error_unmodified (⟨[patchOkA, patchMissing], false⟩ : RegistryState Nat)
      cont0 contAfterA [patchOkA] [] patchMissing ("Service not found: " ++ "nope") rfl rfl rfl
      (Or.inl ⟨by decide, rfl⟩)

/-- C5: after a failed applyPatches — an arbitrary prefix of patches
succeeded, then one patch raised at either of its fallible steps — the
earlier patches remain applied in the container (its services are
exactly the state the successful prefix produced, since the failing
step mutates nothing) while the registry, including the applied flag,
is unchanged; a subsequent applyPatches call therefore re-runs the
whole list from the start, its loop re-processing the earlier patches
before reaching the failing position again, and, for earlier patches
with pairwise-distinct targets whose factories succeed again, each one
re-fetches via container.get the already-patched instance it stored in
the first run as its original and wraps it again, double-applying the
patch. -/
theorem applyPatches_failed_rerun_double {α : Type} (r : RegistryState α)
    (c c1 d1 : DIState α) (pre ps : List (ServicePatch α)) (p : ServicePatch α) (e : String)
    (ha : r.applied = false)
    (hp : r.patches = pre ++ p :: ps)
    (hpre : applyLoop c pre = (c1, none))
    (hfail : (applyOne c1 p).2 = some e)
    (hdist : pre.Pairwise (fun q1 q2 => q1.target ≠ q2.target))
    (hpre2 : applyLoop (applyPatches r c).container pre = (d1, none)) :
    (applyPatches r c).error = some e ∧
    (applyPatches r c).registry = r ∧
    (applyPatches r c).container.services = c1.services ∧
    applyLoop (applyPatches r c).container r.patches = applyLoop d1 (p :: ps) ∧
    (∀ q ∈ pre, ∃ v w u,
        lookupService q.target c.services = some v ∧
        q.factory v = Except.ok w ∧
        lookupService q.target (applyPatches r c).container.services = some w ∧
        q.factory w = Except.ok u ∧
        lookupService q.target d1.services = some u) := by
  have hloop : applyLoop c r.patches = ((applyOne c1 p).1, some e) := by
    rw [hp, applyLoop_append_ok pre (p :: ps) c c1 hpre]
    simp [applyLoop, hfail]
  have hR : applyPatches r c = ⟨r, (applyOne c1 p).1, some e⟩ := by
    simp [applyPatches, ha, hloop]
  have hserv : (applyPatches r c).container.services = c1.services := by
    rw [hR]
    exact applyOne_err_services c1 p e hfail
  refine ⟨by rw [hR], by rw [hR], hserv, ?_, ?_⟩
  · rw [hp]
    exact applyLoop_append_ok pre (p :: ps) _ d1 hpre2
  · intro q hq
    obtain ⟨v, w, hl1, hf1, hc1⟩ := applyLoop_ok_each pre c c1 hpre hdist q hq
    obtain ⟨w2, u, hl2, hf2, hd1⟩ := applyLoop_ok_each pre _ d1 hpre2 hdist q hq
    have hw : w2 = w := by
      have hww : some w2 = some w := hl2.symm.trans (by rw [hserv]; exact hc1)
      exact Option.some.inj hww
    subst hw
    exact ⟨v, w2, u, hl1, hf1, by rw [hserv]; exact hc1, hf2, hd1⟩

/-- Witness for C5: svcA is wrapped to 11 by the failed first run (svcB
keeps failing) and re-fetched as 11 and wrapped to 21 by the second
run. -/
theorem applyPatches_failed_rerun_double_witness :
    (applyPatches (⟨[patchOkA, patchBoom], false⟩ : RegistryState Nat) cont0).error = some "boom" ∧
    (applyPatches (⟨[patchOkA, patchBoom], false⟩ : RegistryState Nat) cont0).registry =
      ⟨[patchOkA, patchBoom], false⟩ ∧
    (applyPatches (⟨[patchOkA, patchBoom], false⟩ : RegistryState Nat) cont0).container.services =
      contAfterA.services ∧
    applyLoop (applyPatches (⟨[patchOkA, patchBoom], false⟩ : RegistryState Nat) cont0).container
      [patchOkA, patchBoom] = applyLoop contRerunA [patchBoom] ∧
    lookupService "svcA" cont0.services = some 1 ∧
    patchOkA.factory 1 = Except.ok 11 ∧
    lookupService "svcA"
      (applyPatches (⟨[patchOkA, patchBoom], false⟩ : RegistryState Nat) cont0).container.services =
      some 11 ∧
    patchOkA.factory 11 = Except.ok 21 ∧
    lookupService "svcA" contRerunA.services = some 21 := by
  have h := applyPatches_failed_rerun_double
    (⟨[patchOkA, patchBoom], false⟩ : RegistryState Nat) cont0 contAfterA contRerunA
    [patchOkA] [] patchBoom "boom" rfl rfl rfl rfl (by simp) rfl
  exact ⟨h.1, h.2.1, h.2.2.1, h.2.2.2.1, by decide, rfl, by decide, rfl, by decide⟩

/-- C6 counterexample: the specifier under the always-base alias does
not start with the overlay alias followed by a slash, yet the plugin
resolveId hook returns a path (the base file) instead of absent, so
resolution does not fall through to the default chain for it. -/
theorem resolve_passthrough_counterexample :
    strStartsWith "@n8n-base/foo" ("@" ++ "/") = false ∧
    resolveId fsBaseOnly "@" "ext" "n8n" "@n8n-base/foo" = some "n8n/foo.ts" := by
  exact ⟨by decide, by decide⟩

/-- C6 amended: for every configuration, a specifier that does not start
with the overlay alias followed by a slash is passed through by the pure
resolver resolveAliasedPath; the plugin resolveId hook passes it through
provided it also does not carry the always-base alias (which resolveId
additionally handles). -/
theorem resolve_passthrough (fs : String → Bool)
    (source aliasPfx targetDir extDir baseDir : String)
    (h1 : strStartsWith source (aliasPfx ++ "/") = false) :
    resolveAliasedPath source aliasPfx targetDir = none ∧
    (strStartsWith source baseAliasSlash = false →
      resolveId fs aliasPfx extDir baseDir source = none) := by
  constructor
  · simp [resolveAliasedPath, h1]
  · intro h2
    simp [resolveId, h1, h2]

/-- Witness for the amended C6 on a bare specifier. -/
theorem resolve_passthrough_witness :
    resolveAliasedPath "vue" "@" "ext" = none ∧
    resolveId fsEmpty "@" "ext" "n8n" "vue" = none :=
  ⟨(resolve_passthrough fsEmpty "vue" "@" "ext" "ext" "n8n" (by decide)).1,
   (resolve_passthrough fsEmpty "vue" "@" "ext" "ext" "n8n" (by decide)).2 (by decide)⟩

/-- C7: over the documented ordered suffix list, findFileWithExtensions
returns the candidate of the first suffix, in list order, that exists
on the filesystem; it returns none when no candidate exists; and it is
deterministic in the filesystem state (any two results computed on the
same state coincide). -/
theorem findFile_first_suffix (fs : String → Bool) (basePath : String) :
    (∀ s : String,
        List.find? (fun e => fs (basePath ++ e)) defaultExtensions = some s →
        findFileWithExtensions fs basePath defaultExtensions = some (basePath ++ s)) ∧
    (List.find? (fun e => fs (basePath ++ e)) defaultExtensions = none →
        findFileWithExtensions fs basePath defaultExtensions = none) ∧
    (∀ r1 r2 : Option String,
        r1 = findFileWithExtensions fs basePath defaultExtensions →
        r2 = findFileWithExtensions fs basePath defaultExtensions → r1 = r2) := by
  refine ⟨?_, ?_, ?_⟩
  · intro s hs
    rw [findFile_eq_find, hs]
    rfl
  · intro hs
    rw [findFile_eq_find, hs]
    rfl
  · intro r1 r2 hr1 hr2
    rw [hr1, hr2]

/-- Witness for C7: with b.tsx and b.vue present the .tsx candidate is
chosen (first in suffix order), and the empty filesystem yields none. -/
theorem findFile_first_suffix_witness :
    findFileWithExtensions fsTsxVue "b" defaultExtensions = some ("b" ++ ".tsx") ∧
    findFileWithExtensions fsEmpty "b" defaultExtensions = none :=
  ⟨(findFile_first_suffix fsTsxVue "b").1 ".tsx" (by decide),
   (findFile_first_suffix fsEmpty "b").2.1 (by decide)⟩

/-- C8: with the default overlay alias, resolution of an always-base
specifier consults the filesystem only on the candidate paths under the
base root (any two filesystems agreeing there resolve identically, so
no override-root path is ever probed), and any returned path is one of
those base-root candidates, so an override file importing through the
always-base alias can never resolve back to an override file. -/
theorem resolveId_base_alias_only_base (fs1 fs2 : String → Bool)
    (extDir baseDir source : String)
    (hB : strStartsWith source baseAliasSlash = true)
    (hfs : ∀ p ∈ baseCandidates baseDir source, fs1 p = fs2 p) :
    resolveId fs1 "@" extDir baseDir source = resolveId fs2 "@" extDir baseDir source ∧
    (∀ r : String, resolveId fs1 "@" extDir baseDir source = some r →
      r ∈ baseCandidates baseDir source) := by
  have hA := base_alias_not_at_slash source hB
  constructor
  · simp [resolveId, hA, hB]
    exact findFile_congr defaultExtensions
      (fun e he => hfs _ (List.mem_map_of_mem _ he))
  · intro r hr
    simp [resolveId, hA, hB] at hr
    have hm := findFile_mem defaultExtensions hr
    simpa [baseCandidates] using hm.1

/-- Witness for C8: adding an override file to the filesystem does not
change how an always-base specifier resolves. -/
theorem resolveId_base_alias_only_base_witness :
    resolveId fsBaseAndOverride "@" "ext" "n8n" "@n8n-base/foo" =
      resolveId fsBaseOnly "@" "ext" "n8n" "@n8n-base/foo" :=
  (resolveId_base_alias_only_base fsBaseAndOverride fsBaseOnly "ext" "n8n" "@n8n-base/foo"
    (by decide) (by decide)).1

/-- C9: validating a manifest entry of kind replace whose override file
is absent under every suffix yields an invalid result with status
missing whose basePath is the computed override path under the
extensions directory. -/
theorem validateFrontendPatch_missing_override (fs : String → Bool)
    (patch : PatchEntry) (extDir n8nSrc : String)
    (_hk : patch.type = PatchType.replace)
    (habs : ∀ e ∈ defaultExtensions,
      fs (pathResolve extDir patch.path ++ e) = false) :
    (validateFrontendPatch fs patch extDir n8nSrc).valid = false ∧
    (validateFrontendPatch fs patch extDir n8nSrc).status = VStatus.missing ∧
    (validateFrontendPatch fs patch extDir n8nSrc).basePath =
      some (pathResolve extDir patch.path) := by
  have h := findFile_none defaultExtensions habs
  simp [validateFrontendPatch, h]

/-- Witness for C9 on the demo entry and the empty filesystem. -/
theorem validateFrontendPatch_missing_override_witness :
    (validateFrontendPatch fsEmpty demoEntry "ext" "n8n").valid = false ∧
    (validateFrontendPatch fsEmpty demoEntry "ext" "n8n").status = VStatus.missing ∧
    (validateFrontendPatch fsEmpty demoEntry "ext" "n8n").basePath =
      some (pathResolve "ext" demoEntry.path) :=
  validateFrontendPatch_missing_override fsEmpty demoEntry "ext" "n8n" rfl (by decide)

/-- C10: with the default overlay alias, an always-base specifier with
no existing candidate under the base root makes resolveId return none
(absent), neither raising nor falling back to the override root. -/
theorem resolveId_base_missing_none (fs : String → Bool)
    (extDir baseDir source : String)
    (hB : strStartsWith source baseAliasSlash = true)
    (habs : ∀ e ∈ defaultExtensions,
      fs (pathResolve baseDir (strDrop source (strLength baseAliasSlash)) ++ e) = false) :
    resolveId fs "@" extDir baseDir source = none := by
  have hA := base_alias_not_at_slash source hB
  have h := findFile_none defaultExtensions habs
  simp [resolveId, hA, hB, h]

/-- Witness for C10 on the empty filesystem. -/
theorem resolveId_base_missing_none_witness :
    resolveId fsEmpty "@" "ext" "n8n" "@n8n-base/foo" = none :=
  resolveId_base_missing_none fsEmpty "ext" "n8n" "@n8n-base/foo" (by decide) (by decide)

end Macaques
